import Mathlib

/-!
Verification of the core logic of `Azul_installer.py`, a cross-platform
Java-runtime bootstrap utility.  The Python functions are shallowly embedded
as pure Lean functions:

* `get_latest_zulu` (lines 42-86): package selection over the metadata
  service's result list (the HTTP layer is out of scope; the result list is a
  parameter).
* `choose_permanent_base` (lines 113-121): placement policy.  Note: lines
  119 and 121 of the source read `os.eniron` (a misspelling of `os.environ`,
  which is spelled correctly elsewhere, e.g. lines 126 and 152); attribute
  lookup on the `os` module therefore raises `AttributeError` on those
  branches, which the embedding renders as `.error`.
* `move_extracted_to_base` (lines 130-142): relocation of the extracted tree,
  over an explicit filesystem model (a list of existing directory paths, each
  a list of segments, in iteration order).
* `persist_env_windows_user` (lines 123-127): `setx` writes to the user-scope
  variable store (`check=False`, so failures never raise).
* `persist_env_posix` (lines 144-162): marker-guarded append to a shell rc
  file, over a file-store model (`String → Option String`).
* `setup_java` (lines 192-259): the orchestrator, parameterised by the
  outcomes of its I/O collaborators; scratch-directory lifecycle is tracked
  by an explicit list of live scratch directories threaded through the
  `try/finally` structure.  The final version check (lines 233-237) is
  wrapped in `try/except` in the source and affects neither the returned
  value nor the scratch state, so it is not modelled.

Python's substring test `pat in text` is embedded as `hasSub`; `occs` counts
the number of positions at which a pattern occurs, used to state the
"exactly one managed block" property.
-/

deriving instance DecidableEq for Except

namespace AzulInstaller

/-- Python `pat in text` on character lists: does `pat` occur (as a
contiguous run) somewhere in `l`? -/
def hasSub (pat : List Char) : List Char → Bool
  | [] => pat.isPrefixOf ([] : List Char)
  | c :: tl => pat.isPrefixOf (c :: tl) || hasSub pat tl

/-- Number of positions of `l` at which `pat` occurs (suffix positions whose
head matches `pat`). -/
def occs (pat : List Char) : List Char → Nat
  | [] => if pat.isPrefixOf ([] : List Char) then 1 else 0
  | c :: tl => (if pat.isPrefixOf (c :: tl) then 1 else 0) + occs pat tl

/-! ## Metadata Resolver (`get_latest_zulu`, lines 42-86) -/

/-- A record of the metadata service's result list: the fields of
`pkg["name"]` and `pkg["download_url"]` actually consumed by the code. -/
structure Pkg where
  name : String
  download_url : String

/-- The checkpoint/restore build marker filtered out at line 69. -/
def cracMarker : String := "-crac-"

/-- Line 68: `pkg["name"].lower()`, viewed as its character list (ASCII case
mapping, which covers the package names involved). -/
def lowerData (s : String) : List Char := s.data.map Char.toLower

/-- Line 71: `any(name.endswith(suf) for suf in suffix)` on the lowered
name. -/
def endsWithAny (sufs : List String) (nameLower : List Char) : Bool :=
  sufs.any (fun suf => suf.data.isSuffixOf nameLower)

/-- Lines 66-73: first package whose lowered name is not a `-crac-` build and
ends with one of the suffixes; returns `(download_url, name)`. -/
def pick (sufs : List String) : List Pkg → Option (String × String)
  | [] => none
  | pkg :: rest =>
    if hasSub cracMarker.data (lowerData pkg.name) then pick sufs rest
    else if endsWithAny sufs (lowerData pkg.name) then some (pkg.download_url, pkg.name)
    else pick sufs rest

/-- Lines 42-86 with the HTTP query abstracted: `data` is the service's
(ordered) result list.  Both failures are `ValueError`s in the source; they
are embedded as `.error` with the source's message strings. -/
def get_latest_zulu (osName : String) (data : List Pkg) : Except String (String × String) :=
  if data.isEmpty then
    .error "No matching Zulu JDK found."
  else
    let found :=
      if osName == "windows" then
        match pick [".msi"] data with
        | some f => some f
        | none => pick [".zip"] data
      else if osName == "macos" then
        match pick [".tar.gz", ".tgz"] data with
        | some f => some f
        | none => pick [".zip"] data
      else
        match pick [".tar.gz", ".tgz"] data with
        | some f => some f
        | none => pick [".zip"] data
    match found with
    | some f => .ok f
    | none => .error "No suitable package found for the specified OS and architecture."

/-- Modelled from the spec (section 4.1), for comparison with
`get_latest_zulu`: first exclude every candidate carrying the
checkpoint/restore marker. -/
def survivors (data : List Pkg) : List Pkg :=
  data.filter (fun p => !(hasSub cracMarker.data (lowerData p.name)))

/-- Modelled from the spec (section 4.1): the fixed per-OS packaging
preference order (windows: installer then zip; macos/linux: gzip tarball
then zip). -/
def preferenceTiers (osName : String) : List (List String) :=
  if osName == "windows" then [[".msi"], [".zip"]] else [[".tar.gz", ".tgz"], [".zip"]]

/-- Modelled from the spec (section 4.1): first surviving match in preference
order, ties within a format broken by the service's own result ordering. -/
def firstByTiers (surv : List Pkg) : List (List String) → Option (String × String)
  | [] => none
  | tier :: rest =>
    match surv.find? (fun p => endsWithAny tier (lowerData p.name)) with
    | some p => some (p.download_url, p.name)
    | none => firstByTiers surv rest

/-- Modelled from the spec (sections 4.1 and 8): filter the marker builds
out, then take the first surviving candidate in preference order; no
candidates or no survivor is an error. -/
def resolveSpec (osName : String) (data : List Pkg) : Except String (String × String) :=
  if data.isEmpty then
    .error "No matching Zulu JDK found."
  else
    match firstByTiers (survivors data) (preferenceTiers osName) with
    | some f => .ok f
    | none => .error "No suitable package found for the specified OS and architecture."

/-! ## Placement Resolver (`choose_permanent_base`, lines 113-121) -/

/-- Lines 113-121.  The linux and macos rows return the policy paths; the
windows row (line 119) and the fallback row (line 121) evaluate
`os.eniron.get(...)` / `os.eniron[...]`, and `os.eniron` does not exist, so
both raise `AttributeError` before producing a path. -/
def choose_permanent_base (osName : String) (isRoot : Bool) (home : String) :
    Except String String :=
  if osName == "linux" then
    .ok (if isRoot then "/usr/local/lib/jvm" else home ++ "/.local/share/java")
  else if osName == "macos" then
    .ok (if isRoot then "/Library/Java/JavaVirtualMachines"
         else home ++ "/Library/Java/JavaVirtualMachines")
  else
    .error "AttributeError: module 'os' has no attribute 'eniron'"

/-! ## Relocator (`move_extracted_to_base`, lines 130-142)

The filesystem is modelled as the list of existing directory paths (each a
list of path segments); the list order stands for directory-iteration
order. -/

/-- Line 131: the directory children of `dir` (paths one segment longer than
`dir` that extend it), in iteration order. -/
def subdirsOf (fs : List (List String)) (dir : List String) : List (List String) :=
  fs.filter (fun p => p.length == dir.length + 1 && dir.isPrefixOf p)

/-- All nonempty prefixes of `p`, shortest first: the directories
`base.mkdir(parents=True)` has to ensure. -/
def ancestorsIncl (p : List String) : List (List String) :=
  (List.range p.length).map (fun i => p.take (i + 1))

/-- Line 135: `base.mkdir(parents=True, exist_ok=True)` — add `base` and its
missing ancestors. -/
def mkdirP (fs : List (List String)) (p : List String) : List (List String) :=
  fs ++ (ancestorsIncl p).filter (fun q => !(fs.contains q))

/-- Line 140: `shutil.move(src, dest)` — relocate the subtree rooted at
`src` to `dest`. -/
def moveTree (fs : List (List String)) (src dest : List String) : List (List String) :=
  fs.map (fun p => if src.isPrefixOf p then dest ++ p.drop src.length else p)

/-- Lines 130-142.  Returns the filesystem after the call together with the
returned path (`.error` for the `RuntimeError` raised at line 133; the state
is returned in either case since a raise does not roll the filesystem
back). -/
def move_extracted_to_base (fs : List (List String)) (tmpExtract base : List String) :
    List (List String) × Except String (List String) :=
  match subdirsOf fs tmpExtract with
  | [] => (fs, .error "Extraction failed, no contents found.")
  | srcRoot :: _ =>
    let fs1 := mkdirP fs base
    let dest := base ++ [srcRoot.getLastD ""]
    if fs1.contains dest then (fs1, .ok dest)
    else (moveTree fs1 srcRoot dest, .ok dest)

/-! ## Environment Integrator (lines 123-127 and 144-162) -/

/-- The user-scope persistent environment store written by `setx`
(lines 125-126): just the two variables the code touches. -/
structure WinUserEnv where
  javaHome : Option String
  path : Option String

/-- Lines 123-127: `setx JAVA_HOME <root>` and
`setx PATH "%JAVA_HOME%\bin;<process PATH>"`.  `setx` overwrites the stored
value, and both calls use `check=False`, so the operation never raises and
ignores the previous store. -/
def persist_env_windows_user (jdkRoot envPath : String) (_s : WinUserEnv) : WinUserEnv :=
  ⟨some jdkRoot, some ("%JAVA_HOME%\\bin;" ++ envPath)⟩

/-- The marker line checked at line 158. -/
def markerLine : String := "# >>> zulu-jdk (managed) >>>"

/-- Lines 146-151: the managed block appended to the rc file. -/
def envBlock (jdkRoot : String) : String :=
  "\n# >>> zulu-jdk (managed) >>>\n" ++ ("export JAVA_HOME=\"" ++ jdkRoot ++ "\"\n")
    ++ "export PATH=\"$JAVA_HOME/bin:$PATH\"\n" ++ "# <<< zulu-jdk (managed) <<<\n"

/-- Lines 157-161 restricted to one file's contents: append the managed
block unless the marker is already present. -/
def appendBlockIfAbsent (jdkRoot text : String) : String :=
  if hasSub markerLine.data text.data then text else text ++ envBlock jdkRoot

/-- Line 156: `next((p for p in candidates if p.exists()), home/".profile")`. -/
def pickTarget (files : String → Option String) : List String → String
  | [] => ".profile"
  | c :: cs => if (files c).isSome then c else pickTarget files cs

/-- Lines 144-162 over a file-store model mapping rc-file names to contents
(`none` = file does not exist).  Candidate files prefer zsh startup files
when the login shell contains "zsh", and only the chosen target file is ever
written. -/
def persist_env_posix (jdkRoot shell : String) (files : String → Option String) :
    String → Option String :=
  let candidates :=
    if hasSub "zsh".data shell.data then [".zshrc", ".zprofile"] else [".bashrc", ".profile"]
  let target := pickTarget files candidates
  let text := (files target).getD ""
  if hasSub markerLine.data text.data then files
  else fun f => if f = target then some (text ++ envBlock jdkRoot) else files f

/-- The body of `persist_env_posix` with the candidate list `C` abstracted
(`persist_env_posix jdkRoot shell files` is definitionally
`persistShape jdkRoot C files` for the candidate list chosen from the
shell); used to reason about re-application. -/
def persistShape (jdkRoot : String) (C : List String) (files : String → Option String) :
    String → Option String :=
  if hasSub markerLine.data (((files (pickTarget files C)).getD "").data) then files
  else fun f => if f = pickTarget files C
    then some (((files (pickTarget files C)).getD "") ++ envBlock jdkRoot) else files f

/-- A representative concrete runtime root for the occurrence-count
statements. -/
def sampleRoot : String := "/usr/local/lib/jvm/zulu21"

/-! ## Orchestrator (`setup_java`, lines 192-259) -/

/-- The dictionary returned by `setup_java` (lines 195 and 259): its keys are
`java_bin`, `jdk_root` and `mode` (plus `os`/`arch` echoes of the platform
identity on line 259, which carry no installation state).  There is no
`env_integrated` key. -/
structure Outcome where
  java_bin : String
  jdk_root : Option String
  mode : String
deriving DecidableEq

/-- Lines 192-259, parameterised by the outcomes of the I/O collaborators:
`installed` is `ensure_java_installed()`; `normR` is `normalize_os_arch()`;
`resolveR` is `get_latest_zulu(...)` (its `(url, fname)` or the exception);
`downloadR` is `download_file(...)`; `msiR` is `install_zulu_msi(...)`;
`extractR` is `extract_archive(...)`; `moveR` is
`move_extracted_to_base(...)` (the returned `jdk_root` or the exception);
`persistPosixR` is `persist_env_posix(...)` (whose file writes can raise;
the windows `setx` calls use `check=False` and cannot).  The first component
of the result is the list of scratch directories still existing when
`setup_java` terminates; `tmpdir` (line 202) and `tmp_extract` (line 214)
are removed by the two `finally` blocks (lines 219-220, 229-230). -/
def setup_java (installed : Bool) (normR : Except String (String × String))
    (resolveR : Except String (String × String)) (downloadR : Except String Unit)
    (isRoot : Bool) (home : String) (msiR : Except String Unit)
    (extractR : Except String Unit) (moveR : Except String String)
    (persistPosixR : Except String Unit) : List String × Except String Outcome :=
  if installed then ([], .ok ⟨"java", none, "existing"⟩)
  else
    match normR with
    | .error e => ([], .error e)
    | .ok (osName, _arch) =>
      match resolveR with
      | .error e => ([], .error e)
      | .ok (_url, fname) =>
        let live0 : List String := ["tmpdir"]
        let body : List String × Except String Outcome :=
          match downloadR with
          | .error e => (live0, .error e)
          | .ok _ =>
            if osName == "windows" && ".msi".data.isSuffixOf (lowerData fname) then
              match msiR with
              | .error e => (live0, .error e)
              | .ok _ => (live0, .ok ⟨"java", none, "msi"⟩)
            else
              match choose_permanent_base osName isRoot home with
              | .error e => (live0, .error e)
              | .ok _base =>
                let live1 := live0 ++ ["tmp_extract"]
                let innerR : Except String String :=
                  match extractR with
                  | .error e => .error e
                  | .ok _ => moveR
                let live2 := live1.erase "tmp_extract"
                match innerR with
                | .error e => (live2, .error e)
                | .ok jdkRoot =>
                  if osName == "windows" then
                    (live2, .ok ⟨jdkRoot ++ "/bin/java.exe", some jdkRoot, "portable"⟩)
                  else
                    match persistPosixR with
                    | .error e => (live2, .error e)
                    | .ok _ => (live2, .ok ⟨jdkRoot ++ "/bin/java", some jdkRoot, "portable"⟩)
        (body.1.erase "tmpdir", body.2)

/-! ## Helper lemmas -/

theorem hasSub_iff (pat : List Char) :
    ∀ l : List Char, hasSub pat l = true ↔ ∃ s, s <:+ l ∧ pat <+: s := by
  intro l
  induction l with
  | nil => simp [hasSub]
  | cons c tl ih =>
    rw [hasSub, Bool.or_eq_true, ih]
    constructor
    · rintro (h | ⟨s, hs, hp⟩)
      · exact ⟨c :: tl, List.suffix_refl _, by simpa using h⟩
      · exact ⟨s, hs.trans (List.suffix_cons c tl), hp⟩
    · rintro ⟨s, hs, hp⟩
      rcases List.suffix_cons_iff.mp hs with h | h
      · left; subst h; simpa using hp
      · right; exact ⟨s, h, hp⟩

theorem prefix_append_cases {pat s b : List Char} {c : Char}
    (h : pat <+: s ++ (c :: b)) : pat <+: s ∨ c ∈ pat := by
  obtain ⟨t, ht⟩ := h
  have htake : pat = (s ++ (c :: b)).take pat.length := by
    rw [← ht, List.take_left]
  rw [List.take_append_eq_append_take] at htake
  rcases le_or_lt pat.length s.length with hle | hlt
  · left
    rw [Nat.sub_eq_zero_of_le hle] at htake
    simp only [List.take_zero, List.append_nil] at htake
    refine ⟨s.drop pat.length, ?_⟩
    nth_rewrite 1 [htake]
    rw [List.take_append_drop]
  · right
    rw [List.take_of_length_le (Nat.le_of_lt hlt)] at htake
    obtain ⟨k, hk⟩ : ∃ k, pat.length - s.length = k + 1 := ⟨pat.length - s.length - 1, by omega⟩
    rw [hk, List.take_succ_cons] at htake
    rw [htake]
    exact List.mem_append_right _ (List.mem_cons_self _ _)

theorem occs_append_right (pat b : List Char) :
    ∀ t : List Char, (∀ s, s <:+ t → s ≠ [] → ¬ pat <+: (s ++ b)) →
      occs pat (t ++ b) = occs pat b := by
  intro t
  induction t with
  | nil => intro _; rfl
  | cons c t' ih =>
    intro h
    have h0 : ¬ (pat.isPrefixOf (c :: (t' ++ b)) = true) := by
      intro hp
      have hp' : pat <+: ((c :: t') ++ b) := by simpa using hp
      exact h (c :: t') (List.suffix_refl _) (List.cons_ne_nil _ _) hp'
    have h1 : occs pat (t' ++ b) = occs pat b :=
      ih fun s hs hne => h s (hs.trans (List.suffix_cons c t')) hne
    show (if pat.isPrefixOf (c :: (t' ++ b)) then 1 else 0) + occs pat (t' ++ b) = occs pat b
    rw [if_neg h0, h1]
    exact Nat.zero_add _

theorem no_occ_cond {pat t : List Char} {c : Char} {b' : List Char}
    (hsub : hasSub pat t = false) (hc : c ∉ pat) :
    ∀ s, s <:+ t → s ≠ [] → ¬ pat <+: (s ++ (c :: b')) := by
  intro s hs _ hp
  rcases prefix_append_cases hp with h | h
  · have htrue : hasSub pat t = true := (hasSub_iff pat t).mpr ⟨s, hs, h⟩
    rw [htrue] at hsub
    cases hsub
  · exact hc h

theorem hasSub_append_left {pat a : List Char} (b : List Char)
    (h : hasSub pat a = true) : hasSub pat (a ++ b) = true := by
  obtain ⟨s, hs, hp⟩ := (hasSub_iff pat a).mp h
  obtain ⟨q, hq⟩ := hs
  refine (hasSub_iff pat (a ++ b)).mpr ⟨s ++ b, ⟨q, by rw [← List.append_assoc, hq]⟩,
    hp.trans ⟨b, rfl⟩⟩

theorem hasSub_append_right {pat b : List Char} (t : List Char)
    (h : hasSub pat b = true) : hasSub pat (t ++ b) = true := by
  obtain ⟨s, hs, hp⟩ := (hasSub_iff pat b).mp h
  exact (hasSub_iff pat (t ++ b)).mpr ⟨s, hs.trans ⟨t, rfl⟩, hp⟩

theorem marker_hasSub_block (jdkRoot : String) :
    hasSub markerLine.data (envBlock jdkRoot).data = true := by
  show hasSub markerLine.data
    ("\n# >>> zulu-jdk (managed) >>>\n" ++ ("export JAVA_HOME=\"" ++ jdkRoot ++ "\"\n")
      ++ "export PATH=\"$JAVA_HOME/bin:$PATH\"\n" ++ "# <<< zulu-jdk (managed) <<<\n").data = true
  simp only [String.data_append, List.append_assoc]
  exact hasSub_append_left _ (by decide)

theorem marker_hasSub_append_block (jdkRoot text : String) :
    hasSub markerLine.data (text ++ envBlock jdkRoot).data = true := by
  rw [String.data_append]
  exact hasSub_append_right _ (marker_hasSub_block jdkRoot)

theorem appendBlockIfAbsent_of_present {jdkRoot text : String}
    (h : hasSub markerLine.data text.data = true) :
    appendBlockIfAbsent jdkRoot text = text := by
  rw [appendBlockIfAbsent, if_pos h]

theorem appendBlockIfAbsent_of_absent {jdkRoot text : String}
    (h : hasSub markerLine.data text.data = false) :
    appendBlockIfAbsent jdkRoot text = text ++ envBlock jdkRoot := by
  rw [appendBlockIfAbsent, if_neg (by rw [h]; exact Bool.false_ne_true)]

/-! ## Claim theorems -/

/-- Claim C1 (code bug evidence).  The Placement Resolver is claimed to
return one of the policy-table base paths for every supported OS kind and
never fail; in the code, the linux and macos rows do exactly that, but the
windows branch (line 119) evaluates `os.eniron.get("ProgramFiles", ...)`,
and the `os` module has no attribute `eniron` (a typo for `os.environ`,
spelled correctly at lines 126 and 152), so `choose_permanent_base`
raises `AttributeError` on windows instead of returning the vendor
subdirectory under Program Files. -/
theorem choose_permanent_base_windows_fails (isRoot : Bool) (home : String) :
    choose_permanent_base "windows" isRoot home
        = .error "AttributeError: module 'os' has no attribute 'eniron'"
      ∧ choose_permanent_base "linux" true home = .ok "/usr/local/lib/jvm"
      ∧ choose_permanent_base "linux" false home = .ok (home ++ "/.local/share/java")
      ∧ choose_permanent_base "macos" true home = .ok "/Library/Java/JavaVirtualMachines"
      ∧ choose_permanent_base "macos" false home
        = .ok (home ++ "/Library/Java/JavaVirtualMachines") :=
  ⟨rfl, rfl, rfl, rfl, rfl⟩

/-- Claim C8.  If the scratch directory has no subdirectories, the Relocator
raises (`RuntimeError("Extraction failed, no contents found.")`, the code's
realisation of `ExtractionEmptyError`) and the filesystem is returned
untouched — in particular the base directory has not been created, since the
check at lines 131-133 precedes `base.mkdir` at line 135. -/
theorem move_empty_scratch_raises_no_mutation
    (fs : List (List String)) (tmpExtract base : List String)
    (h : subdirsOf fs tmpExtract = []) :
    move_extracted_to_base fs tmpExtract base
      = (fs, .error "Extraction failed, no contents found.") := by
  rw [move_extracted_to_base, h]

/-- Witness for C8: a scratch directory with no subdirectories on a concrete
filesystem. -/
theorem move_empty_scratch_raises_no_mutation_witness :
    move_extracted_to_base [["scratch"]] ["scratch"] ["base"]
      = ([["scratch"]], .error "Extraction failed, no contents found.") :=
  move_empty_scratch_raises_no_mutation [["scratch"]] ["scratch"] ["base"] (by decide)

/-- Claim C9.  On every exit path of the orchestrator — already-installed
short-circuit, platform-normalisation failure, metadata failure, download
failure, installer failure, placement failure, unpack/relocate failure,
environment-persistence failure, and success — no scratch directory is
still live when `setup_java` terminates: `tmpdir` and `tmp_extract` are
removed by the `finally` blocks at lines 219-220 and 229-230. -/
theorem setup_java_scratch_cleanup (installed : Bool)
    (normR resolveR : Except String (String × String)) (downloadR : Except String Unit)
    (isRoot : Bool) (home : String) (msiR extractR : Except String Unit)
    (moveR : Except String String) (persistPosixR : Except String Unit) :
    (setup_java installed normR resolveR downloadR isRoot home msiR extractR moveR
        persistPosixR).1 = [] := by
  unfold setup_java
  split
  · rfl
  · cases normR with
    | error e => rfl
    | ok p =>
      obtain ⟨osName, arch⟩ := p
      cases resolveR with
      | error e => rfl
      | ok q =>
        obtain ⟨url, fname⟩ := q
        simp only
        cases downloadR with
        | error e => rfl
        | ok u =>
          simp only
          split
          · cases msiR with
            | error e => rfl
            | ok v => rfl
          · cases choose_permanent_base osName isRoot home with
            | error e => rfl
            | ok base =>
              simp only
              cases extractR with
              | error e => rfl
              | ok w =>
                simp only
                cases moveR with
                | error e => rfl
                | ok jdkRoot =>
                  simp only
                  split
                  · rfl
                  · cases persistPosixR with
                    | error e => rfl
                    | ok x => rfl

/-- Claim C4 (counterexample).  On the Windows native-installer path the
orchestrator reports the mode string "msi" — not "native_installer" — so the
reported install mode is not drawn from {existing, native_installer,
portable} as claimed (while the runtime root is indeed null). -/
theorem setup_java_msi_mode_counterexample :
    (setup_java false (.ok ("windows", "x86_64")) (.ok ("u", "pkg.msi")) (.ok ()) false "h"
        (.ok ()) (.ok ()) (.ok "r") (.ok ())).2 = .ok ⟨"java", none, "msi"⟩
      ∧ "msi" ≠ "native_installer" ∧ "msi" ≠ "existing" ∧ "msi" ≠ "portable" :=
  ⟨by decide, by decide, by decide, by decide⟩

/-- Claim C4 (amended).  The orchestrator's reported mode is always one of
the code's three literals {"existing", "msi", "portable"} ("msi" being the
code's name for the native-installer path), and any result whose mode is
"msi" carries a null runtime root. -/
theorem setup_java_mode_classification (installed : Bool)
    (normR resolveR : Except String (String × String)) (downloadR : Except String Unit)
    (isRoot : Bool) (home : String) (msiR extractR : Except String Unit)
    (moveR : Except String String) (persistPosixR : Except String Unit) (r : Outcome)
    (h : (setup_java installed normR resolveR downloadR isRoot home msiR extractR moveR
        persistPosixR).2 = .ok r) :
    (r.mode = "existing" ∨ r.mode = "msi" ∨ r.mode = "portable")
      ∧ (r.mode = "msi" → r.jdk_root = none) := by
  unfold setup_java at h
  revert h
  split
  · intro h
    injection h with h2
    subst h2
    exact ⟨Or.inl rfl, fun hm => absurd hm (by decide)⟩
  · cases normR with
    | error e => intro h; exact Except.noConfusion h
    | ok p =>
      obtain ⟨osName, arch⟩ := p
      cases resolveR with
      | error e => intro h; exact Except.noConfusion h
      | ok q =>
        obtain ⟨url, fname⟩ := q
        simp only
        cases downloadR with
        | error e => intro h; exact Except.noConfusion h
        | ok u =>
          simp only
          split
          · cases msiR with
            | error e => intro h; exact Except.noConfusion h
            | ok v =>
              intro h
              injection h with h2
              subst h2
              exact ⟨Or.inr (Or.inl rfl), fun _ => rfl⟩
          · cases choose_permanent_base osName isRoot home with
            | error e => intro h; exact Except.noConfusion h
            | ok base =>
              simp only
              cases extractR with
              | error e => intro h; exact Except.noConfusion h
              | ok w =>
                simp only
                cases moveR with
                | error e => intro h; exact Except.noConfusion h
                | ok jdkRoot =>
                  simp only
                  split
                  · intro h
                    injection h with h2
                    subst h2
                    exact ⟨Or.inr (Or.inr rfl), fun hm => by simp at hm⟩
                  · cases persistPosixR with
                    | error e => intro h; exact Except.noConfusion h
                    | ok x =>
                      intro h
                      injection h with h2
                      subst h2
                      exact ⟨Or.inr (Or.inr rfl), fun hm => by simp at hm⟩

/-- Witness for C4 (amended): the Windows MSI run yields mode "msi" with a
null runtime root. -/
theorem setup_java_mode_classification_witness :
    ("msi" = "existing" ∨ "msi" = "msi" ∨ "msi" = "portable")
      ∧ ("msi" = "msi" → (none : Option String) = none) := by
  have h := setup_java_mode_classification false (.ok ("windows", "x86_64"))
    (.ok ("u", "pkg.msi")) (.ok ()) false "h" (.ok ()) (.ok ()) (.ok "r") (.ok ())
    ⟨"java", none, "msi"⟩ (by decide)
  exact h

/-- Claim C2 (counterexample).  A run that reaches POSIX environment
persistence and fails there does not return a success result: the exception
propagates out of `setup_java` (there is no try/except around
`persist_env_posix` at line 226), so the run aborts with the persistence
error instead of reporting success with `env_integrated: false` (no such
key exists in the result dictionary built at line 259). -/
theorem setup_java_persist_failure_counterexample :
    (setup_java false (.ok ("linux", "x86_64")) (.ok ("u", "z.tar.gz")) (.ok ()) false
        "/home/u" (.ok ()) (.ok ()) (.ok "/r") (.error "PermissionError")).2
      = .error "PermissionError" := rfl

/-- Claim C2 (amended).  A failure while persisting environment state on the
POSIX portable path aborts the run: `setup_java` propagates the persistence
error (the scratch directories are still removed by the `finally` blocks),
and no `env_integrated` flag exists on the success result. -/
theorem setup_java_persist_failure_aborts (osName arch url fname : String) (isRoot : Bool)
    (home base jdkRoot e : String)
    (hw : (osName == "windows") = false)
    (hc : choose_permanent_base osName isRoot home = .ok base) :
    setup_java false (.ok (osName, arch)) (.ok (url, fname)) (.ok ()) isRoot home (.ok ())
        (.ok ()) (.ok jdkRoot) (.error e) = ([], .error e) := by
  unfold setup_java
  simp only [hw, hc]
  rfl

/-- Witness for C2 (amended): a concrete linux run whose rc-file write
fails. -/
theorem setup_java_persist_failure_aborts_witness :
    setup_java false (.ok ("linux", "x86_64")) (.ok ("u", "z.tar.gz")) (.ok ()) false
        "/home/u" (.ok ()) (.ok ()) (.ok "/home/u/.local/share/java/zulu")
        (.error "PermissionError") = ([], .error "PermissionError") :=
  setup_java_persist_failure_aborts "linux" "x86_64" "u" "z.tar.gz" false "/home/u"
    "/home/u/.local/share/java" "/home/u/.local/share/java/zulu" "PermissionError"
    (by decide) rfl

theorem move_extracted_cons (fs : List (List String)) (tmpExtract base d : List String)
    (ds : List (List String)) (hE : subdirsOf fs tmpExtract = d :: ds) :
    move_extracted_to_base fs tmpExtract base
      = if (mkdirP fs base).contains (base ++ [d.getLastD ""])
          then (mkdirP fs base, .ok (base ++ [d.getLastD ""]))
          else (moveTree (mkdirP fs base) d (base ++ [d.getLastD ""]),
            .ok (base ++ [d.getLastD ""])) := by
  unfold move_extracted_to_base
  rw [hE]

/-- Claim C3 (counterexample).  The reuse of an existing destination is NOT
surfaced to the caller as a `reused_existing: true` status flag: the function
returns only the destination path (line 139), so a call that skips the move
because `base/<name>` already exists returns a value identical to a fresh
install's — here both the fresh call and the reuse call return exactly
`ok ["b", "zulu"]`. -/
theorem move_reuse_report_counterexample :
    (move_extracted_to_base [["t"], ["t", "zulu"]] ["t"] ["b"]).2 = .ok ["b", "zulu"]
      ∧ (move_extracted_to_base [["t"], ["t", "zulu"], ["b"], ["b", "zulu"]] ["t"] ["b"]).2
        = .ok ["b", "zulu"]
      ∧ (move_extracted_to_base [["t"], ["t", "zulu"]] ["t"] ["b"]).2
        = (move_extracted_to_base [["t"], ["t", "zulu"], ["b"], ["b", "zulu"]] ["t"] ["b"]).2 := by
  decide

/-- Claim C3 (amended).  When the scratch directory has a first subdirectory
named `n`: the Relocator never raises and returns `base/<n>` (first
conjunct, also establishing that the destination exists afterwards); and
when `base/<n>` already exists (as after a previous run with the same base
and distribution name) the move is skipped, the existing destination is
treated as authoritative and the filesystem is left unchanged apart from
ensuring `base` — but the reuse is only logged, the returned value being
identical to a fresh install's (no `reused_existing` flag; see the
counterexample). -/
theorem move_existing_dest_skip :
    (∀ fs scratch base d₁ ds, subdirsOf fs scratch = d₁ :: ds →
        (move_extracted_to_base fs scratch base).2 = .ok (base ++ [d₁.getLastD ""])
          ∧ (base ++ [d₁.getLastD ""]) ∈ (move_extracted_to_base fs scratch base).1)
      ∧ (∀ fs scratch base d₁ ds, subdirsOf fs scratch = d₁ :: ds →
          (mkdirP fs base).contains (base ++ [d₁.getLastD ""]) = true →
          move_extracted_to_base fs scratch base
            = (mkdirP fs base, .ok (base ++ [d₁.getLastD ""]))) := by
  constructor
  · intro fs scratch base d₁ ds hE
    have hd₁ : d₁ ∈ fs := by
      have : d₁ ∈ subdirsOf fs scratch := by rw [hE]; exact List.mem_cons_self _ _
      exact List.mem_of_mem_filter this
    rw [move_extracted_cons fs scratch base d₁ ds hE]
    split
    · next hc =>
      refine ⟨rfl, ?_⟩
      simpa using hc
    · next hc =>
      refine ⟨rfl, ?_⟩
      refine List.mem_map.mpr ⟨d₁, List.mem_append_left _ hd₁, ?_⟩
      simp
  · intro fs scratch base d₁ ds hE hD
    rw [move_extracted_cons fs scratch base d₁ ds hE, if_pos hD]

/-- Witness for C3 (amended): a fresh first call reports `ok ["b","zulu"]`,
and a second call on a filesystem already containing the destination skips
the move and reports the same path. -/
theorem move_existing_dest_skip_witness :
    (move_extracted_to_base [["t"], ["t", "zulu"]] ["t"] ["b"]).2 = .ok ["b", "zulu"]
      ∧ move_extracted_to_base [["t"], ["t", "zulu"], ["b"], ["b", "zulu"]] ["t"] ["b"]
        = (mkdirP [["t"], ["t", "zulu"], ["b"], ["b", "zulu"]] ["b"], .ok ["b", "zulu"]) :=
  ⟨(move_existing_dest_skip.1 [["t"], ["t", "zulu"]] ["t"] ["b"] ["t", "zulu"] []
      (by decide)).1,
    move_existing_dest_skip.2 [["t"], ["t", "zulu"], ["b"], ["b", "zulu"]] ["t"] ["b"]
      ["t", "zulu"] [] (by decide) (by decide)⟩

/-- Claim C10 (counterexample).  With more than one top-level subdirectory
in scratch the Relocator indeed does not raise and leaves the others
untouched, but it does not always move the first subdirectory into the base
directory: when the destination already exists the move is skipped, so the
first subdirectory `t/a` is still inside scratch after the call. -/
theorem move_multi_subdir_counterexample :
    subdirsOf [["t"], ["t", "a"], ["t", "b"], ["bb"], ["bb", "a"]] ["t"]
        = [["t", "a"], ["t", "b"]]
      ∧ (move_extracted_to_base [["t"], ["t", "a"], ["t", "b"], ["bb"], ["bb", "a"]]
          ["t"] ["bb"]).2 = .ok ["bb", "a"]
      ∧ ["t", "a"] ∈ (move_extracted_to_base [["t"], ["t", "a"], ["t", "b"], ["bb"], ["bb", "a"]]
          ["t"] ["bb"]).1 := by
  decide

/-- Claim C10 (amended).  If the scratch directory contains more than one
top-level subdirectory the Relocator does not raise; provided the
destination `base/<first name>` does not already exist, it moves exactly the
first subdirectory in directory-iteration order into the base directory
(the filesystem becomes `moveTree` of the first subdirectory after the base
mkdir) and the remaining top-level subdirectories stay in scratch
untouched. -/
theorem move_multi_subdir_fresh (fs : List (List String)) (scratch base d₁ d₂ : List String)
    (ds : List (List String)) (hN : fs.Nodup)
    (hE : subdirsOf fs scratch = d₁ :: d₂ :: ds)
    (hF : (mkdirP fs base).contains (base ++ [d₁.getLastD ""]) = false) :
    (move_extracted_to_base fs scratch base).2 = .ok (base ++ [d₁.getLastD ""])
      ∧ (move_extracted_to_base fs scratch base).1
        = moveTree (mkdirP fs base) d₁ (base ++ [d₁.getLastD ""])
      ∧ (base ++ [d₁.getLastD ""]) ∈ (move_extracted_to_base fs scratch base).1
      ∧ ∀ d ∈ d₂ :: ds, d ∈ (move_extracted_to_base fs scratch base).1 := by
  have hmemsub : ∀ p, p ∈ subdirsOf fs scratch →
      p ∈ fs ∧ p.length = scratch.length + 1 := by
    intro p hp
    obtain ⟨hmem, hpred⟩ := List.mem_filter.mp hp
    refine ⟨hmem, ?_⟩
    have := (Bool.and_eq_true _ _).mp hpred
    simpa using this.1
  have hd₁ : d₁ ∈ subdirsOf fs scratch := by rw [hE]; exact List.mem_cons_self _ _
  have hnodupsub : (d₁ :: d₂ :: ds).Nodup := by
    rw [← hE]
    exact List.Sublist.nodup (List.filter_sublist fs) hN
  rw [move_extracted_cons fs scratch base d₁ (d₂ :: ds) hE]
  rw [if_neg (by rw [hF]; exact Bool.false_ne_true)]
  refine ⟨rfl, rfl, ?_, ?_⟩
  · refine List.mem_map.mpr ⟨d₁, List.mem_append_left _ (hmemsub d₁ hd₁).1, ?_⟩
    simp
  · intro d hd
    have hdsub : d ∈ subdirsOf fs scratch := by
      rw [hE]; exact List.mem_cons_of_mem _ hd
    have hne : d₁ ≠ d := by
      intro hEq
      exact (List.nodup_cons.mp hnodupsub).1 (hEq ▸ hd)
    refine List.mem_map.mpr ⟨d, List.mem_append_left _ (hmemsub d hdsub).1, ?_⟩
    rw [if_neg ?_]
    intro hpre
    have hpre' : d₁ <+: d := by simpa using hpre
    exact hne (hpre'.eq_of_length ((hmemsub d₁ hd₁).2.trans (hmemsub d hdsub).2.symm))

/-- Witness for C10 (amended): two subdirectories in scratch, fresh
destination; the first is moved (destination present afterwards) and the
second stays in scratch. -/
theorem move_multi_subdir_fresh_witness :
    (move_extracted_to_base [["t"], ["t", "a"], ["t", "b"]] ["t"] ["bb"]).2
        = .ok ["bb", "a"]
      ∧ ["bb", "a"] ∈ (move_extracted_to_base [["t"], ["t", "a"], ["t", "b"]] ["t"] ["bb"]).1
      ∧ ["t", "b"] ∈ (move_extracted_to_base [["t"], ["t", "a"], ["t", "b"]] ["t"] ["bb"]).1 := by
  have h := move_multi_subdir_fresh [["t"], ["t", "a"], ["t", "b"]] ["t"] ["bb"]
    ["t", "a"] ["t", "b"] [] (by decide) (by decide) (by decide)
  exact ⟨h.1, h.2.2.1, h.2.2.2 ["t", "b"] (List.mem_cons_self _ _)⟩

theorem pick_eq_find (sufs : List String) : ∀ data : List Pkg,
    pick sufs data = Option.map (fun p => (p.download_url, p.name))
      ((survivors data).find? (fun p => endsWithAny sufs (lowerData p.name))) := by
  intro data
  induction data with
  | nil => rfl
  | cons pkg rest ih =>
    have ih' := ih
    simp only [survivors] at ih'
    by_cases hc : hasSub cracMarker.data (lowerData pkg.name) = true
    · simp [pick, survivors, List.filter_cons, hc, ih']
    · have hc0 : hasSub cracMarker.data (lowerData pkg.name) = false := by
        revert hc; cases hasSub cracMarker.data (lowerData pkg.name) <;> simp
      by_cases hm : endsWithAny sufs (lowerData pkg.name) = true
      · simp [pick, survivors, List.filter_cons, hc0, hm]
      · have hm0 : endsWithAny sufs (lowerData pkg.name) = false := by
          revert hm; cases endsWithAny sufs (lowerData pkg.name) <;> simp
        simp [pick, survivors, List.filter_cons, hc0, hm0, ih']

/-- Claim C7.  The Metadata Resolver is exactly the spec's selection policy:
filter out every candidate whose (lowered) name contains the
checkpoint/restore marker "-crac-" — even when it is the only candidate —
then return the first surviving candidate in the fixed per-OS packaging
preference order (windows: .msi then .zip; macos/linux: .tar.gz/.tgz then
.zip), ties within a format broken by the service's own result order; an
empty result set or no surviving match is an error (`ValueError`, the
code's realisation of `NotFoundError`, with the two source messages
distinguishing the cases). -/
theorem get_latest_zulu_eq_resolveSpec (osName : String) (data : List Pkg) :
    get_latest_zulu osName data = resolveSpec osName data := by
  unfold get_latest_zulu resolveSpec preferenceTiers
  by_cases he : data.isEmpty
  · rw [if_pos he, if_pos he]
  · rw [if_neg he, if_neg he]
    by_cases hw : (osName == "windows") = true
    · simp only [if_pos hw]
      rw [pick_eq_find [".msi"] data, pick_eq_find [".zip"] data]
      cases h1 : (survivors data).find? (fun p => endsWithAny [".msi"] (lowerData p.name)) with
      | some p => simp [firstByTiers, h1]
      | none =>
        cases h2 : (survivors data).find? (fun p => endsWithAny [".zip"] (lowerData p.name)) with
        | some p => simp [firstByTiers, h1, h2]
        | none => simp [firstByTiers, h1, h2]
    · simp only [if_neg hw]
      have htar : ∀ z : Option (String × String),
          (match pick [".tar.gz", ".tgz"] data with
            | some f => some f
            | none => pick [".zip"] data) = z →
          (match z with
            | some f => Except.ok (ε := String) f
            | none => Except.error "No suitable package found for the specified OS and architecture.")
            = match firstByTiers (survivors data) [[".tar.gz", ".tgz"], [".zip"]] with
              | some f => Except.ok f
              | none => Except.error
                  "No suitable package found for the specified OS and architecture." := by
        intro z hz
        rw [← hz]
        rw [pick_eq_find [".tar.gz", ".tgz"] data, pick_eq_find [".zip"] data]
        cases h1 : (survivors data).find?
            (fun p => endsWithAny [".tar.gz", ".tgz"] (lowerData p.name)) with
        | some p => simp [firstByTiers, h1]
        | none =>
          cases h2 : (survivors data).find? (fun p => endsWithAny [".zip"] (lowerData p.name)) with
          | some p => simp [firstByTiers, h1, h2]
          | none => simp [firstByTiers, h1, h2]
      by_cases hm : (osName == "macos") = true
      · simp only [if_pos hm]
        exact htar _ rfl
      · simp only [if_neg hm]
        exact htar _ rfl

theorem persist_env_posix_eq_shape (jdkRoot shell : String) (files : String → Option String) :
    persist_env_posix jdkRoot shell files
      = persistShape jdkRoot
          (if hasSub "zsh".data shell.data then [".zshrc", ".zprofile"]
           else [".bashrc", ".profile"]) files := rfl

theorem pickTarget_update (files : String → Option String) (v : String) :
    ∀ C : List String,
      pickTarget (fun f => if f = pickTarget files C then some v else files f) C
        = pickTarget files C := by
  intro C
  induction C with
  | nil => rfl
  | cons c cs ih =>
    by_cases h1 : (files c).isSome = true
    · simp [pickTarget, h1]
    · have h0 : (files c).isSome = false := by
        revert h1; cases (files c).isSome <;> simp
      have hT : pickTarget files (c :: cs) = pickTarget files cs := by
        simp [pickTarget, h0]
      rw [hT]
      by_cases hceq : c = pickTarget files cs
      · simp [pickTarget, hceq]
      · simp [pickTarget, hceq, h0, ih]

theorem persistShape_idem (jdkRoot : String) (C : List String)
    (files : String → Option String) :
    persistShape jdkRoot C (persistShape jdkRoot C files) = persistShape jdkRoot C files := by
  by_cases hmk :
      hasSub markerLine.data (((files (pickTarget files C)).getD "").data) = true
  · have h1 : persistShape jdkRoot C files = files := by
      unfold persistShape; rw [if_pos hmk]
    rw [h1]
    exact h1
  · have hmk0 : hasSub markerLine.data (((files (pickTarget files C)).getD "").data) = false := by
      revert hmk
      cases hasSub markerLine.data (((files (pickTarget files C)).getD "").data) <;> simp
    have h1 : persistShape jdkRoot C files
        = fun f => if f = pickTarget files C
            then some (((files (pickTarget files C)).getD "") ++ envBlock jdkRoot)
            else files f := by
      unfold persistShape
      rw [if_neg (by rw [hmk0]; exact Bool.false_ne_true)]
    rw [h1]
    have hT2 : pickTarget
        (fun f => if f = pickTarget files C
          then some (((files (pickTarget files C)).getD "") ++ envBlock jdkRoot)
          else files f) C = pickTarget files C :=
      pickTarget_update files _ C
    unfold persistShape
    rw [hT2]
    have hv : (fun f => if f = pickTarget files C
        then some (((files (pickTarget files C)).getD "") ++ envBlock jdkRoot)
        else files f) (pickTarget files C)
        = some (((files (pickTarget files C)).getD "") ++ envBlock jdkRoot) := by simp
    rw [hv, Option.getD_some]
    rw [if_pos (marker_hasSub_append_block jdkRoot ((files (pickTarget files C)).getD ""))]

/-- Claim C5.  Environment persistence is idempotent on the persisted state
for both OS models: on Windows, `setx` overwrites the two user-scope
variables with values computed only from the runtime root and the process
PATH, so re-running with the same inputs leaves the store unchanged; on
POSIX, re-applying `persist_env_posix` with the same shell and runtime root
to the file store produced by a first application changes nothing — the
first application either found the marker (and wrote nothing) or appended
the managed block to the chosen rc file, and the second application finds
the marker in that same file and skips the write, so no duplicate state
accumulates. -/
theorem persist_idempotent :
    (∀ jdkRoot envPath : String, ∀ s : WinUserEnv,
        persist_env_windows_user jdkRoot envPath (persist_env_windows_user jdkRoot envPath s)
          = persist_env_windows_user jdkRoot envPath s)
      ∧ (∀ jdkRoot shell : String, ∀ files : String → Option String,
          persist_env_posix jdkRoot shell (persist_env_posix jdkRoot shell files)
            = persist_env_posix jdkRoot shell files) := by
  constructor
  · intro _ _ _
    rfl
  · intro jdkRoot shell files
    rw [persist_env_posix_eq_shape, persist_env_posix_eq_shape]
    exact persistShape_idem jdkRoot _ files

set_option maxRecDepth 40000 in
/-- Claim C6 (counterexample).  "For every profile file contents" is too
strong: starting from contents that already hold two copies of the managed
block, the marker check finds the marker, both persistence calls skip the
write, and the file still holds two occurrences of the marker line — not
exactly one. -/
theorem posix_block_once_counterexample :
    hasSub markerLine.data (envBlock sampleRoot ++ envBlock sampleRoot).data = true
      ∧ appendBlockIfAbsent sampleRoot
          (appendBlockIfAbsent sampleRoot (envBlock sampleRoot ++ envBlock sampleRoot))
        = envBlock sampleRoot ++ envBlock sampleRoot
      ∧ occs markerLine.data
          ((appendBlockIfAbsent sampleRoot
            (appendBlockIfAbsent sampleRoot (envBlock sampleRoot ++ envBlock sampleRoot))).data)
        = 2 := by
  decide

set_option maxRecDepth 40000 in
/-- Claim C6 (amended).  For every profile file contents in which the marker
string does not yet occur, applying the POSIX per-file persistence twice
(for the representative runtime root) leaves exactly one occurrence of the
managed marker line: the first call appends the block once, the second
finds the marker and skips the write entirely; and whenever the marker is
already present (for any root), the contents are left unchanged, so no new
occurrence is ever added. -/
theorem posix_block_once :
    (∀ text : String, hasSub markerLine.data text.data = false →
        occs markerLine.data
          ((appendBlockIfAbsent sampleRoot (appendBlockIfAbsent sampleRoot text)).data) = 1)
      ∧ (∀ jdkRoot text : String, hasSub markerLine.data text.data = true →
          appendBlockIfAbsent jdkRoot text = text) := by
  constructor
  · intro text h
    rw [appendBlockIfAbsent_of_absent h]
    rw [appendBlockIfAbsent_of_present (marker_hasSub_append_block sampleRoot text)]
    rw [String.data_append]
    have hb : (envBlock sampleRoot).data
        = '\n' :: ("# >>> zulu-jdk (managed) >>>\nexport JAVA_HOME=\"/usr/local/lib/jvm/zulu21\"\nexport PATH=\"$JAVA_HOME/bin:$PATH\"\n# <<< zulu-jdk (managed) <<<\n" : String).data := by
      decide
    rw [hb]
    rw [occs_append_right _ _ _ (no_occ_cond h (by decide))]
    decide
  · intro jdkRoot text h
    exact appendBlockIfAbsent_of_present h

set_option maxRecDepth 40000 in
/-- Witness for C6 (amended): starting from an empty profile, two
applications leave exactly one marker occurrence; starting from a profile
already holding the block, the contents are unchanged. -/
theorem posix_block_once_witness :
    hasSub markerLine.data ("" : String).data = false
      ∧ occs markerLine.data
          ((appendBlockIfAbsent sampleRoot (appendBlockIfAbsent sampleRoot "")).data) = 1
      ∧ hasSub markerLine.data (envBlock sampleRoot).data = true
      ∧ appendBlockIfAbsent sampleRoot (envBlock sampleRoot) = envBlock sampleRoot :=
  ⟨by decide, posix_block_once.1 "" (by decide), by decide,
    posix_block_once.2 sampleRoot (envBlock sampleRoot) (by decide)⟩

end AzulInstaller
